import Mathlib

/-!
Shallow embedding of the fingerprint-correlation core of
`correlation.py` (fpcalc-song-detection), together with theorems
settling the specification claims about it.

Modelling conventions:
* Python fingerprint frames (arbitrary-precision non-negative ints) are `ℕ`;
  bitwise XOR is `Nat.xor`.
* Python floats are modelled as exact rationals `ℚ`.
* Python exceptions are modelled with `Except PyError`; the dynamic-typing
  failure `None >= float` is `PyError.typeError`.
* `None` scores (the soft insufficient-overlap result of
  `cross_correlation`) are `Option ℚ` with `none` for absent.
* The external collaborators of `correlate` (ffmpeg/fpcalc fingerprinting
  of a source window, and the fingerprint files on disk) are inputs: a
  provider function `ℕ → Except Unit (List ℕ)` and a list of
  `(identifier, fingerprint)` pairs.
-/

namespace Fpcalc

/-- Python-level failures of the correlation core: the bare `Exception`s
raised by `correlation` (empty input) and `compare` (span too large, with
the span and the limiting length that appear in the message), numpy's
rejection of a zero step, and the dynamic `TypeError` / `IndexError`. -/
inductive PyError where
  | emptyInput : PyError
  | spanTooLarge (requested limit : ℕ) : PyError
  | zeroStep : PyError
  | typeError : PyError
  | indexError : PyError

/-- Fuel-driven binary digit sum; `popCountAux n n` counts the set bits
of `n` (the fuel `n` dominates the recursion depth `log2 n + 1`). -/
def popCountAux : ℕ → ℕ → ℕ
  | 0, _ => 0
  | fuel + 1, n => if n = 0 then 0 else n % 2 + popCountAux fuel (n / 2)

/-- Number of set bits of `n`: Python's `bin(n).count("1")`. -/
def popCount (n : ℕ) : ℕ := popCountAux n n

/-- Module constant `sample_time = 500` (seconds per window). -/
def sample_time : ℕ := 500

/-- Module constant `span = 150` (points to scan cross correlation over). -/
def span : ℕ := 150

/-- Module constant `step = 1` (step size of cross correlation). -/
def step : ℕ := 1

/-- Module constant `min_overlap = 20` (minimum overlapping points). -/
def min_overlap : ℕ := 20

/-- One term of the covariance sum: `32 - bin(a ^ b).count("1")`,
an integer because Python subtraction may go negative. -/
def frameAgreement (a b : ℕ) : ℤ := 32 - (popCount (a ^^^ b) : ℤ)

/-- The numeric part of `correlation`: truncate the longer list to the
shorter, sum `32 - popcount(x_i ^ y_i)`, divide by the (truncated) length
and then by 32.  Exact rational arithmetic stands in for Python floats. -/
def correlationVal (listx listy : List ℕ) : ℚ :=
  let tx := if listy.length < listx.length then listx.take listy.length else listx
  let ty := if listx.length < listy.length then listy.take listx.length else listy
  let covariance : ℤ := (List.zipWith frameAgreement tx ty).sum
  (covariance : ℚ) / (tx.length : ℚ) / 32

/-- `correlation(listx, listy)`: raises on an empty input, otherwise the
normalized bit-agreement mean. -/
def correlation (listx listy : List ℕ) : Except PyError ℚ :=
  if listx.length = 0 ∨ listy.length = 0 then .error .emptyInput
  else .ok (correlationVal listx listy)

/-- The shift applied by `cross_correlation`: for positive offsets drop
the head of `listx` and cut `listy` to match; for negative offsets the
mirror image; offset 0 leaves both untouched. -/
def shiftPair (listx listy : List ℕ) (offset : ℤ) : List ℕ × List ℕ :=
  if 0 < offset then
    let lx := listx.drop offset.toNat
    (lx, listy.take lx.length)
  else if offset < 0 then
    let ly := listy.drop (-offset).toNat
    (listx.take ly.length, ly)
  else (listx, listy)

/-- Pure value of `cross_correlation`: `none` when the post-shift overlap
is below `min_overlap`, otherwise the similarity of the shifted lists.
This is the spec's `shifted_similarity` contract; the lemma
`cross_correlation_eq` identifies it with the embedded source function. -/
def shifted_similarity (listx listy : List ℕ) (offset : ℤ) : Option ℚ :=
  let p := shiftPair listx listy offset
  if min p.1.length p.2.length < min_overlap then none
  else some (correlationVal p.1 p.2)

/-- `cross_correlation(listx, listy, offset)` from the source: shift,
soft-fail with `None` when the overlap is too small, otherwise delegate
to `correlation` (whose exception would propagate). -/
def cross_correlation (listx listy : List ℕ) (offset : ℤ) :
    Except PyError (Option ℚ) :=
  let p := shiftPair listx listy offset
  if min p.1.length p.2.length < min_overlap then .ok none
  else
    match correlation p.1 p.2 with
    | .error e => .error e
    | .ok v => .ok (some v)

/-- Number of points `numpy.arange(-sp, sp + 1, st)` produces for a
positive integer step `st`. -/
def numOffsets (sp st : ℕ) : ℕ := 2 * sp / st + 1

/-- The offsets `numpy.arange(-sp, sp + 1, st)` iterates over (for a
positive integer step): `-sp, -sp + st, …` while `≤ sp`. -/
def sweepOffsets (sp st : ℕ) : List ℤ :=
  (List.range (numOffsets sp st)).map (fun k : ℕ => -(sp : ℤ) + (k : ℤ) * (st : ℤ))

/-- The loop body of `compare`: evaluate `cross_correlation` at each
offset in order, collecting the scores (an exception aborts the loop). -/
def runOffsets (listx listy : List ℕ) : List ℤ → Except PyError (List (Option ℚ))
  | [] => .ok []
  | o :: rest =>
    match cross_correlation listx listy o with
    | .error e => .error e
    | .ok c =>
      match runOffsets listx listy rest with
      | .error e => .error e
      | .ok tail => .ok (c :: tail)

/-- `compare(listx, listy, span, step)` from the source: raise
`span >= sample size` (carrying the span and the limiting length) when
the span exceeds the shorter input, then sweep the offsets.  numpy
rejects a zero step, modelled by `zeroStep`. -/
def compare (listx listy : List ℕ) (sp st : ℕ) : Except PyError (List (Option ℚ)) :=
  if min listx.length listy.length < sp then
    .error (.spanTooLarge sp (min listx.length listy.length))
  else if st = 0 then .error .zeroStep
  else runOffsets listx listy (sweepOffsets sp st)

/-- Lemma: `shiftPair` never errors downstream — its components' minimum
length being at least `min_overlap` makes both nonempty, so
`cross_correlation` always succeeds with the pure `shifted_similarity`. -/
theorem cross_correlation_eq (listx listy : List ℕ) (offset : ℤ) :
    cross_correlation listx listy offset =
      .ok (shifted_similarity listx listy offset) := by
  unfold cross_correlation shifted_similarity
  set p := shiftPair listx listy offset with hp
  by_cases h : min p.1.length p.2.length < min_overlap
  · simp [h]
  · have h1 : p.1.length ≠ 0 := by
      intro h0
      apply h
      simp [h0, min_overlap]
    have h2 : p.2.length ≠ 0 := by
      intro h0
      apply h
      rw [min_comm]
      simp [h0, min_overlap]
    simp [h, correlation, h1, h2]

/-- `runOffsets` never fails, and returns the pointwise
`shifted_similarity` values. -/
theorem runOffsets_eq (listx listy : List ℕ) :
    ∀ os : List ℤ, runOffsets listx listy os =
      .ok (os.map (shifted_similarity listx listy)) := by
  intro os
  induction os with
  | nil => rfl
  | cons o rest ih => simp [runOffsets, cross_correlation_eq, ih]

/-- Python's `value > max_value` on score entries: defined on floats,
raises `TypeError` as soon as either side is `None`. -/
def pyGt : Option ℚ → Option ℚ → Except PyError Bool
  | some a, some b => .ok (decide (b < a))
  | _, _ => .error .typeError

/-- The loop of `max_index`: running index `i`, best index `mi`, best
value `mv`, updating only on a strictly greater value. -/
def max_indexGo : List (Option ℚ) → ℕ → ℕ → Option ℚ → Except PyError ℕ
  | [], _, mi, _ => .ok mi
  | v :: rest, i, mi, mv =>
    match pyGt v mv with
    | .error e => .error e
    | .ok true => max_indexGo rest (i + 1) i v
    | .ok false => max_indexGo rest (i + 1) mi mv

/-- `max_index(listx)` from the source: start from `listx[0]`
(raising `IndexError` on an empty list) and scan the whole list,
replacing the best value only on strictly greater comparisons. -/
def max_index : List (Option ℚ) → Except PyError ℕ
  | [] => .error .indexError
  | v :: rest => max_indexGo (v :: rest) 0 0 v

/-- `get_max_corr(corr)` from the source: the maximal index together
with the offset `-span + index * step` computed from the module-level
constants `span = 150` and `step = 1` (not from any sweep parameter). -/
def get_max_corr (corr : List (Option ℚ)) : Except PyError (ℕ × ℤ) :=
  match max_index corr with
  | .error e => .error e
  | .ok max_corr_index =>
    .ok (max_corr_index, -(span : ℤ) + max_corr_index * step)

/-- The list comprehension of `is_match`:
`[(c, o) for c, o in corr_scores if c >= threshold]`.  The comparison
`c >= threshold` raises `TypeError` at the first absent (`None`) score. -/
def pyFilterHigh (threshold : ℚ) :
    List (Option ℚ × ℤ) → Except PyError (List (ℚ × ℤ))
  | [] => .ok []
  | (c, o) :: rest =>
    match c with
    | none => .error .typeError
    | some q =>
      match pyFilterHigh threshold rest with
      | .error e => .error e
      | .ok tail => .ok (if threshold ≤ q then (q, o) :: tail else tail)

/-- Insert a pair into a list sorted by offset, before the first entry
whose offset is not smaller (the stable insertion step). -/
def insertByOffset (p : ℚ × ℤ) : List (ℚ × ℤ) → List (ℚ × ℤ)
  | [] => [p]
  | q :: rest => if p.2 ≤ q.2 then p :: q :: rest else q :: insertByOffset p rest

/-- Stable sort by ascending offset: Python's
`high_corrs.sort(key=lambda x: x[1])`. -/
def sortByOffset : List (ℚ × ℤ) → List (ℚ × ℤ)
  | [] => []
  | p :: rest => insertByOffset p (sortByOffset rest)

/-- The cluster grown from starting index `i` of the sorted offset list:
the anchor `offsets[i]` followed by the subsequent entries taken while
their offset minus the anchor offset is at most `maxDev`; the walk stops
at the first violating entry (Python's `break`). -/
def anchorCluster (offsets : List ℤ) (i : ℕ) (maxDev : ℤ) : List ℤ :=
  match offsets.drop i with
  | [] => []
  | a :: rest => a :: rest.takeWhile (fun o => decide (o - a ≤ maxDev))

/-- The part of `is_match` after the comprehension: give up early when
too few high scores remain, otherwise sort by offset and look for a
starting index whose anchored cluster is large enough. -/
def is_matchHigh (high : List (ℚ × ℤ)) (minConsistent : ℕ) (maxDev : ℤ) : Bool :=
  if high.length < minConsistent then false
  else
    let sorted := sortByOffset high
    let offsets := sorted.map Prod.snd
    (List.range offsets.length).any
      (fun i => decide (minConsistent ≤ (anchorCluster offsets i maxDev).length))

/-- `is_match(corr_scores, threshold, min_consistent_offsets,
max_offset_deviation)` from the source, on dynamically typed score
entries (scores may be absent, in which case the comprehension's
comparison raises `TypeError`). -/
def is_match (corr_scores : List (Option ℚ × ℤ)) (threshold : ℚ)
    (minConsistent : ℕ) (maxDev : ℤ) : Except PyError Bool :=
  match pyFilterHigh threshold corr_scores with
  | .error e => .error e
  | .ok high => .ok (is_matchHigh high minConsistent maxDev)

/-- `compare` succeeds whenever the span fits and the step is nonzero. -/
theorem compare_ok (listx listy : List ℕ) (sp st : ℕ)
    (hsp : sp ≤ min listx.length listy.length) (hst : st ≠ 0) :
    compare listx listy sp st =
      .ok ((sweepOffsets sp st).map (shifted_similarity listx listy)) := by
  unfold compare
  rw [if_neg (by omega), if_neg hst, runOffsets_eq]

/-- One detected occurrence as appended to `found_songs`: the reference
identifier (the fingerprint path with directory prefix and `.fpcalc`
suffix stripped, supplied here as the reference's identifier), the
confidence `corr[max_corr_index] * 100.0`, and the window offset in
seconds. -/
structure MatchCandidate where
  ident : String
  confidence : ℚ
  timestamp : ℕ

/-- Python list indexing `corr[i]`, raising `IndexError` out of range. -/
def pyListGet (l : List (Option ℚ)) (i : ℕ) : Except PyError (Option ℚ) :=
  match l[i]? with
  | some v => .ok v
  | none => .error .indexError

/-- Python `v * 100.0` on a score: `TypeError` when `v` is `None`. -/
def pyTimes100 : Option ℚ → Except PyError ℚ
  | some q => .ok (q * 100)
  | none => .error .typeError

/-- The body of `correlate`'s inner loop for one
(source window, reference) pair: skip empty fingerprints, clamp the span
to `min(span, min(len(source), len(short)) - 1)`, skip when the clamped
span is below `min_overlap`, sweep with step 10, zip the scores with
their offsets, decide the match with threshold 0.60,
`min_consistent_offsets = 1`, `max_offset_deviation = 5`, and on a match
emit the candidate built from `get_max_corr`.  Any uncaught exception
propagates. -/
def processPair (source_fingerprint : List ℕ) (ref : String × List ℕ)
    (offset : ℕ) : Except PyError (Option MatchCandidate) :=
  let short_fingerprint := ref.2
  if short_fingerprint.length = 0 ∨ source_fingerprint.length = 0 then .ok none
  else
    let span_to_use :=
      min span (min source_fingerprint.length short_fingerprint.length - 1)
    if span_to_use < min_overlap then .ok none
    else
      match compare source_fingerprint short_fingerprint span_to_use 10 with
      | .error e => .error e
      | .ok corr =>
        let offsets := sweepOffsets span_to_use 10
        let corr_scores := corr.zip offsets
        match is_match corr_scores 0.60 1 5 with
        | .error e => .error e
        | .ok false => .ok none
        | .ok true =>
          match get_max_corr corr with
          | .error e => .error e
          | .ok mc =>
            match pyListGet corr mc.1 with
            | .error e => .error e
            | .ok v =>
              match pyTimes100 v with
              | .error e => .error e
              | .ok conf => .ok (some ⟨ref.1, conf, offset⟩)

/-- The inner `for short_clip_fp_path in fingerprints` loop of
`correlate` over one source window, collecting the emitted candidates in
reference order; an uncaught exception aborts the whole loop. -/
def runRefs (source_fingerprint : List ℕ) (offset : ℕ) :
    List (String × List ℕ) → Except PyError (List MatchCandidate)
  | [] => .ok []
  | ref :: rest =>
    match processPair source_fingerprint ref offset with
    | .error e => .error e
    | .ok c =>
      match runRefs source_fingerprint offset rest with
      | .error e => .error e
      | .ok tail => .ok (c.toList ++ tail)

/-- The outer window loop of `correlate`: a failing fingerprint request
is caught (`try`/`except` around `calculate_fingerprint`) and the window
is skipped; exceptions from the inner loop are not caught. -/
def runWindows (provider : ℕ → Except Unit (List ℕ))
    (refs : List (String × List ℕ)) :
    List ℕ → Except PyError (List MatchCandidate)
  | [] => .ok []
  | off :: rest =>
    match provider off with
    | .error _ => runWindows provider refs rest
    | .ok source_fingerprint =>
      match runRefs source_fingerprint off refs with
      | .error e => .error e
      | .ok cs =>
        match runWindows provider refs rest with
        | .error e => .error e
        | .ok tail => .ok (cs ++ tail)

/-- The window offsets `range(0, duration - window + 1, 10)` scanned by
`correlate`, with `window = sample_time = 500`. -/
def windowOffsets (duration : ℕ) : List ℕ :=
  if duration < sample_time then []
  else (List.range ((duration - sample_time) / 10 + 1)).map (fun k => k * 10)

/-- `correlate(source_file, fingerprints_dir)` from the source, with its
external collaborators abstracted: `provider off` is the outcome of
`calculate_fingerprint(source_file, off, duration=window)` (ffmpeg plus
fpcalc, any exception collapsed to `.error ()`), `refs` the
`(identifier, fingerprint)` pairs read from the fingerprints directory,
and `duration` the probed duration of the source in seconds. -/
def correlate (provider : ℕ → Except Unit (List ℕ))
    (refs : List (String × List ℕ)) (duration : ℕ) :
    Except PyError (List MatchCandidate) :=
  runWindows provider refs (windowOffsets duration)

/-- On purely real-valued score lists the comprehension succeeds and is
the ordinary filter by `score ≥ threshold`. -/
theorem pyFilterHigh_map_some (threshold : ℚ) :
    ∀ scores : List (ℚ × ℤ),
      pyFilterHigh threshold (scores.map (fun p => (some p.1, p.2))) =
        .ok (scores.filter (fun p => decide (threshold ≤ p.1))) := by
  intro scores
  induction scores with
  | nil => rfl
  | cons p rest ih =>
    simp only [List.map_cons, pyFilterHigh, ih, List.filter_cons]
    by_cases h : threshold ≤ p.1
    · simp [h]
    · simp [h]

/-- The comprehension raises `TypeError` as soon as the score list
contains an absent entry. -/
theorem pyFilterHigh_absent (threshold : ℚ) :
    ∀ ps : List (Option ℚ × ℤ), (∃ p ∈ ps, p.1 = none) →
      pyFilterHigh threshold ps = .error .typeError := by
  intro ps
  induction ps with
  | nil => rintro ⟨p, hp, _⟩; cases hp
  | cons q rest ih =>
    rintro ⟨p, hp, hnone⟩
    obtain ⟨c, o⟩ := q
    rcases List.mem_cons.mp hp with h | h
    · subst h
      have hc : c = none := hnone
      subst hc
      rfl
    · cases c with
      | none => simp [pyFilterHigh]
      | some v => simp [pyFilterHigh, ih ⟨p, h, hnone⟩]

/-- Every survivor of the comprehension meets the threshold and comes
from an entry of the input. -/
theorem pyFilterHigh_ok_mem (threshold : ℚ) :
    ∀ (ps : List (Option ℚ × ℤ)) (high : List (ℚ × ℤ)),
      pyFilterHigh threshold ps = .ok high →
      ∀ q ∈ high, threshold ≤ q.1 ∧ (some q.1, q.2) ∈ ps := by
  intro ps
  induction ps with
  | nil =>
    intro high h q hq
    simp only [pyFilterHigh] at h
    cases h
    cases hq
  | cons pr rest ih =>
    intro high h q hq
    obtain ⟨c, o⟩ := pr
    cases c with
    | none => simp [pyFilterHigh] at h
    | some v =>
      simp only [pyFilterHigh] at h
      cases htail : pyFilterHigh threshold rest with
      | error e => rw [htail] at h; cases h
      | ok tail =>
        rw [htail] at h
        cases h
        by_cases hv : threshold ≤ v
        · rw [if_pos hv] at hq
          rcases List.mem_cons.mp hq with h1 | h1
          · subst h1; exact ⟨hv, List.mem_cons_self _ _⟩
          · obtain ⟨h2, h3⟩ := ih tail htail q h1
            exact ⟨h2, List.mem_cons_of_mem _ h3⟩
        · rw [if_neg hv] at hq
          obtain ⟨h2, h3⟩ := ih tail htail q hq
          exact ⟨h2, List.mem_cons_of_mem _ h3⟩

/-- When the comprehension succeeds, no input entry was absent. -/
theorem pyFilterHigh_ok_no_none (threshold : ℚ) :
    ∀ (ps : List (Option ℚ × ℤ)) (high : List (ℚ × ℤ)),
      pyFilterHigh threshold ps = .ok high →
      ∀ p ∈ ps, p.1 ≠ none := by
  intro ps high h p hp hnone
  rw [pyFilterHigh_absent threshold ps ⟨p, hp, hnone⟩] at h
  cases h

/-- The only exception the comprehension raises is `TypeError`. -/
theorem pyFilterHigh_error (threshold : ℚ) :
    ∀ (ps : List (Option ℚ × ℤ)) (e : PyError),
      pyFilterHigh threshold ps = .error e → e = .typeError := by
  intro ps
  induction ps with
  | nil => intro e h; cases h
  | cons pr rest ih =>
    intro e h
    obtain ⟨c, o⟩ := pr
    cases c with
    | none =>
      simp only [pyFilterHigh] at h
      cases h
      rfl
    | some v =>
      simp only [pyFilterHigh] at h
      cases htail : pyFilterHigh threshold rest with
      | error e' =>
        rw [htail] at h
        cases h
        exact ih _ htail
      | ok tail => rw [htail] at h; cases h

/-- Inserting into a sorted-by-offset list is a permutation of consing. -/
theorem insertByOffset_perm (p : ℚ × ℤ) :
    ∀ l : List (ℚ × ℤ), (insertByOffset p l).Perm (p :: l) := by
  intro l
  induction l with
  | nil => exact List.Perm.refl _
  | cons q rest ih =>
    by_cases h : p.2 ≤ q.2
    · simp [insertByOffset, h]
    · simp only [insertByOffset, if_neg h]
      exact (List.Perm.cons q ih).trans (List.Perm.swap p q rest)

/-- The stable sort permutes its input. -/
theorem sortByOffset_perm : ∀ l : List (ℚ × ℤ), (sortByOffset l).Perm l := by
  intro l
  induction l with
  | nil => exact List.Perm.refl _
  | cons p rest ih =>
    exact (insertByOffset_perm p (sortByOffset rest)).trans (List.Perm.cons p ih)

/-- Inserting preserves sortedness by offset. -/
theorem insertByOffset_pairwise (p : ℚ × ℤ) :
    ∀ l : List (ℚ × ℤ), l.Pairwise (fun a b => a.2 ≤ b.2) →
      (insertByOffset p l).Pairwise (fun a b => a.2 ≤ b.2) := by
  intro l
  induction l with
  | nil => intro _; simp [insertByOffset]
  | cons q rest ih =>
    intro hl
    rcases List.pairwise_cons.mp hl with ⟨hq, hrest⟩
    by_cases h : p.2 ≤ q.2
    · rw [insertByOffset, if_pos h]
      refine List.pairwise_cons.mpr ⟨?_, hl⟩
      intro b hb
      rcases List.mem_cons.mp hb with h1 | h1
      · subst h1; exact h
      · exact le_trans h (hq b h1)
    · rw [insertByOffset, if_neg h]
      refine List.pairwise_cons.mpr ⟨?_, ih hrest⟩
      intro b hb
      have := (insertByOffset_perm p rest).mem_iff.mp hb
      rcases List.mem_cons.mp this with h1 | h1
      · subst h1; omega
      · exact hq b h1

/-- The survivors are sorted by ascending offset. -/
theorem sortByOffset_pairwise :
    ∀ l : List (ℚ × ℤ), (sortByOffset l).Pairwise (fun a b => a.2 ≤ b.2) := by
  intro l
  induction l with
  | nil => simp [sortByOffset]
  | cons p rest ih => exact insertByOffset_pairwise p _ ih

/-- Characterization of the clustering verdict on the filtered list:
true exactly when enough survivors exist and some starting index of the
sorted list anchors a large-enough cluster. -/
theorem is_matchHigh_eq_true_iff (high : List (ℚ × ℤ)) (m : ℕ) (d : ℤ) :
    is_matchHigh high m d = true ↔
      m ≤ high.length ∧
        ∃ i < (sortByOffset high).length,
          m ≤ (anchorCluster ((sortByOffset high).map Prod.snd) i d).length := by
  unfold is_matchHigh
  by_cases h : high.length < m
  · simp [h]
  · rw [if_neg h]
    simp only [List.any_eq_true, List.mem_range, decide_eq_true_eq,
      List.length_map]
    constructor
    · rintro ⟨i, hi, hc⟩
      exact ⟨by omega, i, hi, hc⟩
    · rintro ⟨_, i, hi, hc⟩
      exact ⟨i, hi, hc⟩

/-- With `min_consistent_offsets = 1` any nonempty survivor list is a
match: the cluster anchored at the first sorted entry has size ≥ 1. -/
theorem is_matchHigh_one (high : List (ℚ × ℤ)) (d : ℤ) (h : high ≠ []) :
    is_matchHigh high 1 d = true := by
  have hlen : 0 < high.length := List.length_pos.mpr h
  have hslen : 0 < (sortByOffset high).length :=
    (sortByOffset_perm high).length_eq ▸ hlen
  rcases List.exists_cons_of_ne_nil (List.length_pos.mp hslen) with ⟨a, rest, hcons⟩
  refine (is_matchHigh_eq_true_iff high 1 d).mpr ⟨hlen, 0, hslen, ?_⟩
  rw [anchorCluster, List.drop_zero, hcons]
  simp

/-- Pure counterpart of the `max_index` loop on real-valued scores,
returning the best index together with the best value. -/
def maxIdxGo : List ℚ → ℕ → ℕ → ℚ → ℕ × ℚ
  | [], _, mi, mv => (mi, mv)
  | q :: rest, i, mi, mv =>
    if mv < q then maxIdxGo rest (i + 1) i q else maxIdxGo rest (i + 1) mi mv

/-- On purely real-valued scores the dynamic loop never raises and
agrees with the pure loop. -/
theorem max_indexGo_map_some :
    ∀ (l : List ℚ) (i mi : ℕ) (mv : ℚ),
      max_indexGo (l.map some) i mi (some mv) = .ok (maxIdxGo l i mi mv).1 := by
  intro l
  induction l with
  | nil => intro i mi mv; rfl
  | cons q rest ih =>
    intro i mi mv
    simp only [List.map_cons, max_indexGo, maxIdxGo, pyGt]
    by_cases h : mv < q
    · simp [h, ih]
    · simp [h, ih]

/-- Invariant of the pure loop: if the best-so-far value sits at the
best-so-far index of the ambient list and the remaining suffix starts at
the running index, the result indexes the ambient list at the returned
value, which dominates the best-so-far and every remaining score. -/
theorem maxIdxGo_spec :
    ∀ (l : List ℚ) (i mi : ℕ) (mv : ℚ) (L : List ℚ),
      L.drop i = l → L[mi]? = some mv →
      L[(maxIdxGo l i mi mv).1]? = some (maxIdxGo l i mi mv).2 ∧
        mv ≤ (maxIdxGo l i mi mv).2 ∧
        ∀ q ∈ l, q ≤ (maxIdxGo l i mi mv).2 := by
  intro l
  induction l with
  | nil =>
    intro i mi mv L _ hmi
    exact ⟨hmi, le_refl _, by intro q hq; cases hq⟩
  | cons q rest ih =>
    intro i mi mv L hdrop hmi
    have hq : L[i]? = some q := by
      have := List.getElem?_drop L i 0
      rw [hdrop] at this
      simpa using this.symm
    have hrest : L.drop (i + 1) = rest := by
      have : L.drop (i + 1) = (L.drop i).drop 1 := by
        rw [List.drop_drop]
      rw [this, hdrop]
      rfl
    simp only [maxIdxGo]
    by_cases h : mv < q
    · rw [if_pos h]
      obtain ⟨h1, h2, h3⟩ := ih (i + 1) i q L hrest hq
      refine ⟨h1, le_trans (le_of_lt h) h2, ?_⟩
      intro x hx
      rcases List.mem_cons.mp hx with hx | hx
      · subst hx; exact h2
      · exact h3 x hx
    · rw [if_neg h]
      obtain ⟨h1, h2, h3⟩ := ih (i + 1) mi mv L hrest hmi
      refine ⟨h1, h2, ?_⟩
      intro x hx
      rcases List.mem_cons.mp hx with hx | hx
      · subst hx; exact le_trans (not_lt.mp h) h2
      · exact h3 x hx

/-- On a nonempty real-valued score list, `max_index` succeeds and
returns an index holding the maximum score. -/
theorem max_index_map_some (s : List ℚ) (hs : s ≠ []) :
    ∃ i q, max_index (s.map some) = .ok i ∧ s[i]? = some q ∧
      s.maximum = some q := by
  obtain ⟨v, rest, hcons⟩ := List.exists_cons_of_ne_nil hs
  subst hcons
  have hrun : max_index ((v :: rest).map some) =
      .ok (maxIdxGo (v :: rest) 0 0 v).1 := by
    simp only [List.map_cons, max_index]
    rw [← List.map_cons, max_indexGo_map_some]
  obtain ⟨h1, _, h3⟩ := maxIdxGo_spec (v :: rest) 0 0 v (v :: rest) rfl (by simp)
  refine ⟨(maxIdxGo (v :: rest) 0 0 v).1, (maxIdxGo (v :: rest) 0 0 v).2,
    hrun, h1, ?_⟩
  exact List.maximum_eq_coe_iff.mpr ⟨List.getElem?_mem h1, h3⟩

/-- The `max_index` loop raises only `TypeError`. -/
theorem max_indexGo_error :
    ∀ (l : List (Option ℚ)) (i mi : ℕ) (mv : Option ℚ) (e : PyError),
      max_indexGo l i mi mv = .error e → e = .typeError := by
  intro l
  induction l with
  | nil => intro i mi mv e h; cases h
  | cons v rest ih =>
    intro i mi mv e h
    simp only [max_indexGo] at h
    cases hg : pyGt v mv with
    | error e' =>
      rw [hg] at h
      cases h
      cases v <;> cases mv <;> simp only [pyGt] at hg <;> cases hg <;> rfl
    | ok b =>
      rw [hg] at h
      cases b
      · exact ih _ _ _ _ h
      · exact ih _ _ _ _ h

/-- `max_index` raises only `TypeError` or `IndexError`. -/
theorem max_index_error (l : List (Option ℚ)) (e : PyError)
    (h : max_index l = .error e) : e = .typeError ∨ e = .indexError := by
  cases l with
  | nil => cases h; right; rfl
  | cons v rest => exact Or.inl (max_indexGo_error _ _ _ _ _ h)

/-- `is_match` raises only `TypeError`. -/
theorem is_match_error (cs : List (Option ℚ × ℤ)) (θ : ℚ) (m : ℕ) (d : ℤ)
    (e : PyError) (h : is_match cs θ m d = .error e) : e = .typeError := by
  unfold is_match at h
  cases hf : pyFilterHigh θ cs with
  | error e' =>
    rw [hf] at h
    cases h
    exact pyFilterHigh_error θ cs _ hf
  | ok high => rw [hf] at h; cases h

/-- A list with no absent entries is a `some`-image. -/
theorem exists_map_some :
    ∀ l : List (Option ℚ), (∀ c ∈ l, c ≠ none) →
      ∃ s : List ℚ, l = s.map some := by
  intro l
  induction l with
  | nil => intro _; exact ⟨[], rfl⟩
  | cons c rest ih =>
    intro h
    obtain ⟨s, hs⟩ := ih (fun x hx => h x (List.mem_cons_of_mem _ hx))
    cases c with
    | none => exact absurd rfl (h none (List.mem_cons_self _ _))
    | some q => exact ⟨q :: s, by rw [List.map_cons, hs]⟩

/-- Every element of the shorter list appears as a first component of
the zip. -/
theorem zip_cover {α β : Type} :
    ∀ (xs : List α) (ys : List β), xs.length ≤ ys.length →
      ∀ x ∈ xs, ∃ y, (x, y) ∈ xs.zip ys := by
  intro xs
  induction xs with
  | nil => intro ys _ x hx; cases hx
  | cons a rest ih =>
    intro ys hlen x hx
    cases ys with
    | nil => simp at hlen
    | cons b ytail =>
      rcases List.mem_cons.mp hx with h | h
      · subst h
        exact ⟨b, List.mem_cons_self _ _⟩
      · obtain ⟨y, hy⟩ := ih ytail (by simpa using hlen) x h
        exact ⟨y, List.mem_cons_of_mem _ hy⟩

/-- `get_max_corr` raises only `TypeError` or `IndexError`. -/
theorem get_max_corr_error (corr : List (Option ℚ)) (e : PyError)
    (h : get_max_corr corr = .error e) : e = .typeError ∨ e = .indexError := by
  unfold get_max_corr at h
  split at h
  · rename_i e' heq
    cases h
    exact max_index_error corr _ heq
  · cases h

/-- `pyListGet` raises only `IndexError`. -/
theorem pyListGet_error (l : List (Option ℚ)) (i : ℕ) (e : PyError)
    (h : pyListGet l i = .error e) : e = .indexError := by
  unfold pyListGet at h
  split at h
  · cases h
  · cases h
    rfl

/-- `pyTimes100` raises only `TypeError`. -/
theorem pyTimes100_error (v : Option ℚ) (e : PyError)
    (h : pyTimes100 v = .error e) : e = .typeError := by
  cases v with
  | none => cases h; rfl
  | some q => cases h

/-- The inner-loop body raises only `TypeError` or `IndexError`; in
particular its `compare` call never raises, because the clamped span
fits below the shorter length. -/
theorem processPair_error (s : List ℕ) (ref : String × List ℕ) (off : ℕ)
    (e : PyError) (h : processPair s ref off = .error e) :
    e = .typeError ∨ e = .indexError := by
  simp only [processPair] at h
  split at h
  · cases h
  · split at h
    · cases h
    · split at h
      · rename_i e' heq
        rw [compare_ok s ref.2 _ 10 (by omega) (by norm_num)] at heq
        cases heq
      · split at h
        · rename_i e' heq
          cases h
          exact Or.inl (is_match_error _ _ _ _ _ heq)
        · cases h
        · split at h
          · rename_i e' heq
            cases h
            exact get_max_corr_error _ _ heq
          · split at h
            · rename_i e' heq
              cases h
              exact Or.inr (pyListGet_error _ _ _ heq)
            · split at h
              · rename_i e' heq
                cases h
                exact Or.inl (pyTimes100_error _ _ heq)
              · cases h

/-- The inner reference loop raises only `TypeError` or `IndexError`. -/
theorem runRefs_error (s : List ℕ) (off : ℕ) :
    ∀ (refs : List (String × List ℕ)) (e : PyError),
      runRefs s off refs = .error e → e = .typeError ∨ e = .indexError := by
  intro refs
  induction refs with
  | nil => intro e h; cases h
  | cons ref rest ih =>
    intro e h
    simp only [runRefs] at h
    split at h
    · rename_i e' heq
      cases h
      exact processPair_error s ref off _ heq
    · split at h
      · rename_i e' heq
        cases h
        exact ih _ heq
      · cases h

/-- The window loop raises only `TypeError` or `IndexError`. -/
theorem runWindows_error (provider : ℕ → Except Unit (List ℕ))
    (refs : List (String × List ℕ)) :
    ∀ (offs : List ℕ) (e : PyError),
      runWindows provider refs offs = .error e →
      e = .typeError ∨ e = .indexError := by
  intro offs
  induction offs with
  | nil => intro e h; cases h
  | cons off rest ih =>
    intro e h
    simp only [runWindows] at h
    split at h
    · exact ih _ h
    · split at h
      · rename_i e' heq
        cases h
        exact runRefs_error _ _ _ _ heq
      · split at h
        · rename_i e' heq
          cases h
          exact ih _ heq
        · cases h

/-- Every candidate returned by the reference loop was emitted by
`processPair` for some reference of the list. -/
theorem runRefs_mem (s : List ℕ) (off : ℕ) :
    ∀ (refs : List (String × List ℕ)) (cs : List MatchCandidate),
      runRefs s off refs = .ok cs → ∀ cand ∈ cs,
        ∃ ref ∈ refs, processPair s ref off = .ok (some cand) := by
  intro refs
  induction refs with
  | nil =>
    intro cs h cand hc
    cases h
    cases hc
  | cons ref rest ih =>
    intro cs h cand hc
    simp only [runRefs] at h
    split at h
    · cases h
    · rename_i c heq
      split at h
      · cases h
      · rename_i tail htail
        cases h
        rcases List.mem_append.mp hc with h1 | h1
        · have : c = some cand := by
            cases c with
            | none => cases h1
            | some x => simp at h1; rw [h1]
          rw [this] at heq
          exact ⟨ref, List.mem_cons_self _ _, heq⟩
        · obtain ⟨r, hr, hp⟩ := ih tail htail cand h1
          exact ⟨r, List.mem_cons_of_mem _ hr, hp⟩

/-- Every candidate returned by the window loop comes from some window
whose fingerprint request succeeded and whose reference loop emitted
it. -/
theorem runWindows_mem (provider : ℕ → Except Unit (List ℕ))
    (refs : List (String × List ℕ)) :
    ∀ (offs : List ℕ) (res : List MatchCandidate),
      runWindows provider refs offs = .ok res → ∀ cand ∈ res,
        ∃ off ∈ offs, ∃ s, provider off = .ok s ∧
          ∃ cs, runRefs s off refs = .ok cs ∧ cand ∈ cs := by
  intro offs
  induction offs with
  | nil =>
    intro res h cand hc
    cases h
    cases hc
  | cons off rest ih =>
    intro res h cand hc
    simp only [runWindows] at h
    split at h
    · obtain ⟨o, ho, hrest⟩ := ih res h cand hc
      exact ⟨o, List.mem_cons_of_mem _ ho, hrest⟩
    · rename_i s hprov
      split at h
      · cases h
      · rename_i cs hcs
        split at h
        · cases h
        · rename_i tail htail
          cases h
          rcases List.mem_append.mp hc with h1 | h1
          · exact ⟨off, List.mem_cons_self _ _, s, hprov, cs, hcs, h1⟩
          · obtain ⟨o, ho, hrest⟩ := ih tail htail cand h1
            exact ⟨o, List.mem_cons_of_mem _ ho, hrest⟩

/-- When every successfully fingerprinted window's reference loop
succeeds, the window loop succeeds and returns, in window order, the
per-window candidate lists — with failed windows contributing
nothing. -/
theorem runWindows_flatMap (provider : ℕ → Except Unit (List ℕ))
    (refs : List (String × List ℕ)) (f : ℕ → List ℕ → List MatchCandidate) :
    ∀ offs : List ℕ,
      (∀ off ∈ offs, ∀ s, provider off = .ok s →
        runRefs s off refs = .ok (f off s)) →
      runWindows provider refs offs =
        .ok (offs.flatMap (fun off =>
          match provider off with
          | .error _ => []
          | .ok s => f off s)) := by
  intro offs
  induction offs with
  | nil => intro _; rfl
  | cons off rest ih =>
    intro hf
    have hrest := ih (fun o ho s hs => hf o (List.mem_cons_of_mem _ ho) s hs)
    simp only [runWindows, List.flatMap_cons]
    cases hprov : provider off with
    | error u => simpa [hprov] using hrest
    | ok s =>
      have h1 := hf off (List.mem_cons_self _ _) s hprov
      simp [h1, hrest]

/-- Dropping an element that contributes nothing from a `flatMap` leaves
the result unchanged. -/
theorem flatMap_filter_ne {α : Type} [DecidableEq α] (g : α → List MatchCandidate)
    (a0 : α) (hg : g a0 = []) :
    ∀ l : List α, l.flatMap g = (l.filter (fun o => decide (o ≠ a0))).flatMap g := by
  intro l
  induction l with
  | nil => rfl
  | cons a rest ih =>
    by_cases h : a = a0
    · subst h
      simp [List.filter_cons, hg, ih]
    · simp [List.filter_cons, h, ih]

/-- The sweep evaluates `floor(2·span/step) + 1` offsets. -/
theorem sweepOffsets_length (sp st : ℕ) :
    (sweepOffsets sp st).length = 2 * sp / st + 1 := by
  simp [sweepOffsets, numOffsets]

/-- For a positive step the swept offsets are exactly the members of
the arithmetic sequence `-sp, -sp + st, …` that do not exceed `+sp`
(the upper bound is inclusive). -/
theorem sweepOffsets_mem_iff (sp st : ℕ) (hst : 0 < st) (o : ℤ) :
    o ∈ sweepOffsets sp st ↔
      ∃ k : ℕ, o = -(sp : ℤ) + k * st ∧ o ≤ sp := by
  simp only [sweepOffsets, List.mem_map, List.mem_range, numOffsets]
  constructor
  · rintro ⟨k, hk, rfl⟩
    refine ⟨k, rfl, ?_⟩
    have hk2 : k ≤ 2 * sp / st := by omega
    have hks := (Nat.le_div_iff_mul_le hst).mp hk2
    have hks2 : (k : ℤ) * (st : ℤ) ≤ 2 * (sp : ℤ) := by exact_mod_cast hks
    linarith
  · rintro ⟨k, rfl, hle⟩
    refine ⟨k, ?_, rfl⟩
    have hks2 : (k : ℤ) * (st : ℤ) ≤ 2 * (sp : ℤ) := by linarith
    have hks : k * st ≤ 2 * sp := by exact_mod_cast hks2
    have := (Nat.le_div_iff_mul_le hst).mpr hks
    omega

/-- For a positive step the swept offsets are strictly increasing. -/
theorem sweepOffsets_chain (sp st : ℕ) (hst : 0 < st) :
    List.Chain' (· < ·) (sweepOffsets sp st) := by
  unfold sweepOffsets numOffsets
  rw [List.chain'_map, show 2 * sp / st + 1 = (2 * sp / st).succ from rfl,
    List.chain'_range_succ]
  intro m _
  have h0 : (0 : ℤ) < (st : ℤ) := by exact_mod_cast hst
  push_cast
  nlinarith

/-- Every swept offset lies between `-sp` and `+sp`. -/
theorem sweepOffsets_bounds (sp st : ℕ) (hst : 0 < st) (o : ℤ)
    (ho : o ∈ sweepOffsets sp st) : -(sp : ℤ) ≤ o ∧ o ≤ sp := by
  obtain ⟨k, rfl, h2⟩ := (sweepOffsets_mem_iff sp st hst o).mp ho
  refine ⟨?_, h2⟩
  have : 0 ≤ (k : ℤ) * (st : ℤ) := by positivity
  linarith

/-- Casting an integer list sum to `ℚ` commutes with summing casts. -/
theorem sum_cast_div (c : ℚ) :
    ∀ l : List ℤ, (l.map (fun z : ℤ => (z : ℚ) / c)).sum = ((l.sum : ℤ) : ℚ) / c := by
  intro l
  induction l with
  | nil => simp
  | cons a rest ih =>
    simp only [List.map_cons, List.sum_cons, ih]
    push_cast
    rw [add_div]

/-- Truncating the first argument to at least the second's length does
not change a `zipWith`. -/
theorem zipWith_take_left {γ : Type} (f : ℕ → ℕ → γ) (x y : List ℕ) (n : ℕ)
    (hn : y.length ≤ n) :
    List.zipWith f (x.take n) y = List.zipWith f x y := by
  conv_lhs => rw [← List.take_of_length_le hn]
  rw [← List.take_zipWith]
  exact List.take_of_length_le (by rw [List.length_zipWith]; omega)

/-- Truncating the second argument to at least the first's length does
not change a `zipWith`. -/
theorem zipWith_take_right {γ : Type} (f : ℕ → ℕ → γ) (x y : List ℕ) (n : ℕ)
    (hn : x.length ≤ n) :
    List.zipWith f x (y.take n) = List.zipWith f x y := by
  conv_lhs => rw [← List.take_of_length_le hn]
  rw [← List.take_zipWith]
  exact List.take_of_length_le (by rw [List.length_zipWith]; omega)

/-- `correlationVal` is the mean over the aligned frame pairs of the
per-frame agreement `(32 − popcount(xᵢ xor yᵢ)) / 32`; `zipWith` on the
untruncated inputs performs the truncation to the shorter length. -/
theorem correlationVal_eq_mean (x y : List ℕ) :
    correlationVal x y =
      (List.zipWith (fun a b => (frameAgreement a b : ℚ) / 32) x y).sum /
        (min x.length y.length : ℚ) := by
  have hmap : ∀ tx ty : List ℕ,
      (List.zipWith (fun a b => (frameAgreement a b : ℚ) / 32) tx ty).sum =
        ((List.zipWith frameAgreement tx ty).sum : ℤ) / (32 : ℚ) := by
    intro tx ty
    rw [← sum_cast_div 32 (List.zipWith frameAgreement tx ty),
      List.map_zipWith]
  rw [hmap x y]
  simp only [correlationVal]
  split_ifs with h1 h2 h2
  · exact (lt_asymm h1 h2).elim
  · rw [zipWith_take_left frameAgreement x y y.length (le_refl _),
      List.length_take, div_right_comm]
    congr 1
    norm_cast
    omega
  · rw [zipWith_take_right frameAgreement x y x.length (le_refl _),
      div_right_comm]
    congr 1
    norm_cast
    omega
  · rw [div_right_comm]
    congr 1
    norm_cast
    omega

/-- Two identical all-zero fingerprints agree perfectly. -/
theorem correlationVal_replicate (n : ℕ) (hn : 0 < n) :
    correlationVal (List.replicate n 0) (List.replicate n 0) = 1 := by
  have hq : ((n : ℚ)) ≠ 0 := Nat.cast_ne_zero.mpr hn.ne'
  simp only [correlationVal, List.length_replicate, lt_self_iff_false, if_false]
  rw [List.zipWith_replicate, min_self, List.sum_replicate,
    show frameAgreement 0 0 = 32 from by decide]
  simp only [List.length_replicate, nsmul_eq_mul]
  push_cast
  field_simp

/-- Any in-range shift of the 170-frame all-zero fingerprint against
itself leaves at least 20 overlapping frames of perfect agreement. -/
theorem shifted_similarity_replicate (o : ℤ) (hlo : -150 ≤ o) (hhi : o ≤ 150) :
    shifted_similarity (List.replicate 170 0) (List.replicate 170 0) o = some 1 := by
  obtain ⟨m, hm20, hpair⟩ :
      ∃ m : ℕ, 20 ≤ m ∧
        shiftPair (List.replicate 170 0) (List.replicate 170 0) o =
          (List.replicate m 0, List.replicate m 0) := by
    unfold shiftPair
    rcases lt_trichotomy 0 o with hp | hp | hp
    · refine ⟨170 - o.toNat, by omega, ?_⟩
      rw [if_pos hp]
      simp only [List.drop_replicate, List.length_replicate, List.take_replicate]
      rw [min_eq_left (by omega)]
    · refine ⟨170, by omega, ?_⟩
      rw [if_neg (by omega), if_neg (by omega)]
    · refine ⟨170 - (-o).toNat, by omega, ?_⟩
      rw [if_neg (by omega), if_pos hp]
      simp only [List.drop_replicate, List.length_replicate, List.take_replicate]
      rw [min_eq_left (by omega)]
  unfold shifted_similarity
  rw [hpair]
  simp only [List.length_replicate, min_self]
  rw [if_neg (by simp only [min_overlap]; omega),
    correlationVal_replicate _ (by omega)]

/-- The full sweep of the 170-frame all-zero fingerprint against itself:
31 offsets, all scoring a perfect 1. -/
theorem compare_replicate170 :
    compare (List.replicate 170 0) (List.replicate 170 0) 150 10 =
      .ok (List.replicate 31 (some 1)) := by
  rw [compare_ok _ _ _ _ (by norm_num [List.length_replicate]) (by norm_num)]
  congr 1
  rw [List.eq_replicate_iff]
  constructor
  · rw [List.length_map, sweepOffsets_length]
  · intro b hb
    rw [List.mem_map] at hb
    obtain ⟨o, ho, rfl⟩ := hb
    obtain ⟨h1, h2⟩ := sweepOffsets_bounds 150 10 (by norm_num) o ho
    exact shifted_similarity_replicate o (by exact_mod_cast h1) (by exact_mod_cast h2)

/-- The `max_index` loop never updates while scanning copies of its
current best value. -/
theorem max_indexGo_replicate (v : ℚ) :
    ∀ n i mi : ℕ,
      max_indexGo (List.replicate n (some v)) i mi (some v) = .ok mi := by
  intro n
  induction n with
  | zero => intro i mi; rfl
  | succ n ih =>
    intro i mi
    rw [List.replicate_succ]
    simp only [max_indexGo, pyGt, show decide (v < v) = false from by simp]
    exact ih _ _

/-- On a constant nonempty score list the maximum sits at index 0. -/
theorem max_index_replicate (v : ℚ) (n : ℕ) :
    max_index (List.replicate (n + 1) (some v)) = .ok 0 := by
  rw [List.replicate_succ]
  unfold max_index
  rw [← List.replicate_succ]
  exact max_indexGo_replicate v (n + 1) 0 0

/-- `get_max_corr` on a constant nonempty score list: index 0, and the
offset `-span + 0·step = -150` from the module constants. -/
theorem get_max_corr_replicate (v : ℚ) (n : ℕ) :
    get_max_corr (List.replicate (n + 1) (some v)) = .ok (0, -150) := by
  unfold get_max_corr
  rw [max_index_replicate]
  norm_num [span, step]

set_option maxRecDepth 4000 in
/-- On the 170-frame all-zero window and reference, `processPair` emits
a candidate with confidence 100 at the window's offset. -/
theorem processPair_replicate170 (ident : String) (off : ℕ) :
    processPair (List.replicate 170 0) (ident, List.replicate 170 0) off =
      .ok (some ⟨ident, 100, off⟩) := by
  have h150 : min span (min (170 : ℕ) 170 - 1) = 150 := by norm_num [span]
  have hzip : (List.replicate 31 (some (1 : ℚ))).zip (sweepOffsets 150 10) =
      ((List.replicate 31 (1 : ℚ)).zip (sweepOffsets 150 10)).map
        (fun p => (some p.1, p.2)) := by
    rw [show (List.replicate 31 (some (1 : ℚ))) =
        (List.replicate 31 (1 : ℚ)).map some from by rw [List.map_replicate],
      List.zip_map_left]
    rfl
  have hfilter : ((List.replicate 31 (1 : ℚ)).zip (sweepOffsets 150 10)).filter
      (fun p => decide ((0.60 : ℚ) ≤ p.1)) =
      (List.replicate 31 (1 : ℚ)).zip (sweepOffsets 150 10) := by
    rw [List.filter_eq_self]
    intro p hp
    rw [List.eq_of_mem_replicate (List.of_mem_zip hp).1]
    simp only [decide_eq_true_eq]
    norm_num
  have hne : (List.replicate 31 (1 : ℚ)).zip (sweepOffsets 150 10) ≠ [] := by
    apply List.length_pos.mp
    rw [List.length_zip, sweepOffsets_length, List.length_replicate]
    norm_num
  have his : is_match ((List.replicate 31 (some (1 : ℚ))).zip (sweepOffsets 150 10))
      0.60 1 5 = .ok true := by
    rw [hzip]
    unfold is_match
    rw [pyFilterHigh_map_some]
    show Except.ok (is_matchHigh _ 1 5) = Except.ok true
    rw [hfilter, is_matchHigh_one _ _ hne]
  have hg : get_max_corr (List.replicate 31 (some (1 : ℚ))) = .ok (0, -150) := by
    simpa using get_max_corr_replicate (1 : ℚ) 30
  have hpl : pyListGet (List.replicate 31 (some (1 : ℚ))) 0 = .ok (some 1) := by
    unfold pyListGet
    simp [List.getElem?_replicate]
  have hpt : pyTimes100 (some (1 : ℚ)) = .ok 100 := by
    show Except.ok ((1 : ℚ) * 100) = Except.ok 100
    norm_num
  simp only [processPair, List.length_replicate]
  rw [if_neg (by norm_num), h150, if_neg (by norm_num [min_overlap]),
    compare_replicate170]
  simp only [his, hg, hpl, hpt]

/-- Anatomy of an emitted candidate: its score profile was absent-free,
its confidence is the profile's maximum score times 100 and at least
60, its timestamp is the window offset, and its identifier is the
reference's. -/
theorem processPair_ok_some (s : List ℕ) (ref : String × List ℕ) (off : ℕ)
    (cand : MatchCandidate)
    (h : processPair s ref off = .ok (some cand)) :
    ∃ (scores : List ℚ) (q : ℚ),
      compare s ref.2 (min span (min s.length ref.2.length - 1)) 10 =
        .ok (scores.map some) ∧
      scores.maximum = some q ∧ cand.confidence = q * 100 ∧
      (0.60 * 100 : ℚ) ≤ cand.confidence ∧ cand.timestamp = off ∧
      cand.ident = ref.1 := by
  simp only [processPair] at h
  split at h
  · simp at h
  · split at h
    · simp at h
    · split at h
      · rename_i e heq
        rw [compare_ok _ _ _ _ (by omega) (by norm_num)] at heq
        cases heq
      · rename_i corr hcomp
        have heq := hcomp
        rw [compare_ok _ _ _ _ (by omega) (by norm_num)] at heq
        injection heq with heq
        split at h
        · cases h
        · simp at h
        · rename_i him
          split at h
          · cases h
          · rename_i mc hmc
            split at h
            · cases h
            · rename_i v hv
              split at h
              · cases h
              · rename_i conf hconf
                injection h with h1
                injection h1 with h2
                -- h2 : mk ref.1 conf off = cand
                unfold is_match at him
                split at him
                · cases him
                · rename_i high hfil
                  injection him with hmh
                  have hnone : ∀ c ∈ corr, c ≠ none := by
                    intro c hc hcnone
                    have hlen : corr.length ≤
                        (sweepOffsets (min span (min s.length ref.2.length - 1))
                          10).length := by
                      rw [← heq, List.length_map]
                    obtain ⟨o, ho⟩ := zip_cover corr _ hlen c hc
                    exact (pyFilterHigh_ok_no_none _ _ _ hfil (c, o) ho) hcnone
                  obtain ⟨scores, hscores⟩ := exists_map_some corr hnone
                  have hslen : scores ≠ [] := by
                    intro hemp
                    rw [hemp] at hscores
                    rw [hscores] at heq
                    have hlen := congrArg List.length heq
                    rw [List.length_map, sweepOffsets_length] at hlen
                    simp at hlen
                  unfold get_max_corr at hmc
                  split at hmc
                  · cases hmc
                  · rename_i mi hmi
                    injection hmc with hmc2
                    obtain ⟨i, q, hidx, hget, hmax⟩ := max_index_map_some scores hslen
                    rw [hscores, hidx] at hmi
                    injection hmi with hmi2
                    have hmc1 : mc.1 = mi := by rw [← hmc2]
                    unfold pyListGet at hv
                    split at hv
                    · rename_i vv hvv
                      injection hv with hv2
                      rw [hscores, hmc1, ← hmi2, List.getElem?_map] at hvv
                      simp only [hget, Option.map_some'] at hvv
                      injection hvv with hvv2
                      rw [← hv2, ← hvv2] at hconf
                      unfold pyTimes100 at hconf
                      injection hconf with hconf2
                      have hhigh_ne : high ≠ [] := by
                        intro hemp
                        rw [hemp] at hmh
                        simp [is_matchHigh] at hmh
                      obtain ⟨p, hp⟩ :=
                        List.exists_mem_of_length_pos (List.length_pos.mpr hhigh_ne)
                      obtain ⟨hpth, hpmem⟩ := pyFilterHigh_ok_mem _ _ _ hfil p hp
                      have hp1 : some p.1 ∈ corr := (List.of_mem_zip hpmem).1
                      rw [hscores] at hp1
                      obtain ⟨pq, hpqmem, hpqeq⟩ := List.mem_map.mp hp1
                      have hpq1 : pq = p.1 := by
                        injection hpqeq with h3
                      have hple : p.1 ≤ q :=
                        List.le_maximum_of_mem (hpq1 ▸ hpqmem) hmax
                      have hq06 : (0.60 : ℚ) ≤ q := le_trans hpth hple
                      subst h2
                      refine ⟨scores, q, ?_, hmax, ?_, ?_, rfl, rfl⟩
                      · rw [← hscores]
                        exact hcomp
                      · exact hconf2.symm
                      · show (0.60 * 100 : ℚ) ≤ conf
                        rw [← hconf2]
                        exact mul_le_mul_of_nonneg_right hq06 (by norm_num)
                    · cases hv

/-- Demonstration fingerprint provider: the window at offset 10 decodes
to a 170-frame all-zero fingerprint, every other window request fails. -/
def demoProvider (off : ℕ) : Except Unit (List ℕ) :=
  if off = 10 then .ok (List.replicate 170 0) else .error ()

/-- Demonstration reference store with one 170-frame all-zero clip. -/
def demoRefs : List (String × List ℕ) := [("song", List.replicate 170 0)]

/-- The demonstration scan processes windows 0 and 10. -/
theorem windowOffsets_510 : windowOffsets 510 = [0, 10] := by decide

/-- End-to-end demonstration run: window 0's fingerprinting fails and is
skipped; window 10 matches the reference with confidence 100. -/
theorem demo_correlate :
    correlate demoProvider demoRefs 510 = .ok [⟨"song", 100, 10⟩] := by
  unfold correlate
  rw [windowOffsets_510]
  have h0 : demoProvider 0 = .error () := rfl
  have h10 : demoProvider 10 = .ok (List.replicate 170 0) := rfl
  simp only [runWindows, h0, h10, runRefs, demoRefs,
    processPair_replicate170, Option.toList_some, List.append_nil]

/-- Demonstration provider for the aborting scan: every window decodes
to a 21-frame all-zero fingerprint. -/
def absProvider : ℕ → Except Unit (List ℕ) := fun _ => .ok (List.replicate 21 0)

/-- Demonstration reference store with one 21-frame all-zero clip. -/
def absRefs : List (String × List ℕ) := [("clip", List.replicate 21 0)]

/-- On 21-frame inputs the clamped span is 20 and every nonzero shift
leaves fewer than 20 overlapping frames, so the sweep's profile is
absent everywhere except at offset 0. -/
theorem compare_replicate21 :
    compare (List.replicate 21 0) (List.replicate 21 0) 20 10 =
      .ok [none, none, some 1, none, none] := by
  rw [compare_ok _ _ _ _ (by norm_num [List.length_replicate]) (by norm_num)]
  have hoffs : sweepOffsets 20 10 = [-20, -10, 0, 10, 20] := by decide
  rw [hoffs]
  simp only [List.map_cons, List.map_nil]
  have hneg : ∀ o : ℤ, o ≤ -2 → -20 ≤ o →
      shifted_similarity (List.replicate 21 0) (List.replicate 21 0) o = none := by
    intro o ho hlo
    have ho' : o < 0 := by omega
    have hpair : shiftPair (List.replicate 21 0) (List.replicate 21 0) o =
        (List.replicate (21 - (-o).toNat) 0, List.replicate (21 - (-o).toNat) 0) := by
      unfold shiftPair
      rw [if_neg (by omega), if_pos ho']
      simp only [List.drop_replicate, List.length_replicate, List.take_replicate]
      rw [min_eq_left (show 21 - (-o).toNat <= 21 by omega)]
    unfold shifted_similarity
    rw [hpair]
    simp only [List.length_replicate, min_self]
    rw [if_pos (show 21 - (-o).toNat < min_overlap by simp only [min_overlap]; omega)]
  have hpos : ∀ o : ℤ, 2 ≤ o → o ≤ 20 →
      shifted_similarity (List.replicate 21 0) (List.replicate 21 0) o = none := by
    intro o ho hhi
    have ho' : 0 < o := by omega
    have hpair : shiftPair (List.replicate 21 0) (List.replicate 21 0) o =
        (List.replicate (21 - o.toNat) 0, List.replicate (21 - o.toNat) 0) := by
      unfold shiftPair
      rw [if_pos ho']
      simp only [List.drop_replicate, List.length_replicate, List.take_replicate]
      rw [min_eq_left (show 21 - o.toNat <= 21 by omega)]
    unfold shifted_similarity
    rw [hpair]
    simp only [List.length_replicate, min_self]
    rw [if_pos (show 21 - o.toNat < min_overlap by simp only [min_overlap]; omega)]
  have h0 : shifted_similarity (List.replicate 21 0) (List.replicate 21 0) 0 =
      some 1 := by
    have hpair : shiftPair (List.replicate 21 0) (List.replicate 21 0) 0 =
        (List.replicate 21 0, List.replicate 21 0) := by
      unfold shiftPair
      rw [if_neg (by omega), if_neg (by omega)]
    unfold shifted_similarity
    rw [hpair]
    simp only [List.length_replicate, min_self]
    rw [if_neg (by simp only [min_overlap]; omega),
      correlationVal_replicate 21 (by omega)]
  rw [hneg (-20) (by omega) (by omega), hneg (-10) (by omega) (by omega), h0,
    hpos 10 (by omega) (by omega), hpos 20 (by omega) (by omega)]

/-- The zipped score profile of the 21-frame run contains absent
entries, so `is_match` raises `TypeError`. -/
theorem is_match_replicate21 :
    is_match ([none, none, some 1, none, none].zip (sweepOffsets 20 10))
      0.60 1 5 = .error .typeError := by
  unfold is_match
  rw [pyFilterHigh_absent]
  refine ⟨(none, -20), ?_, rfl⟩
  have hoffs : sweepOffsets 20 10 = [-20, -10, 0, 10, 20] := by decide
  rw [hoffs]
  simp

/-- The 21-frame pair aborts `processPair` with `TypeError`. -/
theorem processPair_replicate21 (ident : String) (off : ℕ) :
    processPair (List.replicate 21 0) (ident, List.replicate 21 0) off =
      .error .typeError := by
  have h20 : min span (min (21 : ℕ) 21 - 1) = 20 := by norm_num [span]
  simp only [processPair, List.length_replicate]
  rw [if_neg (by norm_num), h20, if_neg (by norm_num [min_overlap]),
    compare_replicate21]
  simp only [is_match_replicate21]

/-- The 21-frame scan aborts whole with `TypeError`: the absent score
reaches `is_match` through the unchanged sweep output. -/
theorem correlate_abort :
    correlate absProvider absRefs 500 = .error .typeError := by
  unfold correlate
  have hwin : windowOffsets 500 = [0] := by decide
  rw [hwin]
  have h0 : absProvider 0 = .ok (List.replicate 21 0) := rfl
  simp only [runWindows, h0, runRefs, absRefs, processPair_replicate21]

/-- C1: `is_match` keeps the pairs with score ≥ threshold, returns false
when fewer than `min_consistent_offsets` survive, sorts the survivors by
offset ascending (shown sorted and a permutation), and returns true iff
some starting index of the sorted offsets anchors a cluster — grown
while offset minus the anchor offset is ≤ `max_offset_deviation`,
stopping at the first violation — of size ≥ `min_consistent_offsets`;
high-scoring offsets [0, 4, 9] with deviation 5 and minimum 3 produce no
match. -/
theorem c1_is_match_clustering :
    (∀ (scores : List (ℚ × ℤ)) (θ : ℚ) (m : ℕ) (d : ℤ),
      is_match (scores.map (fun p => (some p.1, p.2))) θ m d =
        .ok (is_matchHigh (scores.filter (fun p => decide (θ ≤ p.1))) m d)) ∧
    (∀ (high : List (ℚ × ℤ)) (m : ℕ) (d : ℤ),
      is_matchHigh high m d = true ↔
        m ≤ high.length ∧
          ∃ i < (sortByOffset high).length,
            m ≤ (anchorCluster ((sortByOffset high).map Prod.snd) i d).length) ∧
    (∀ high : List (ℚ × ℤ),
      (sortByOffset high).Pairwise (fun a b => a.2 ≤ b.2) ∧
        (sortByOffset high).Perm high) ∧
    is_match [(some 1, 0), (some 1, 4), (some 1, 9)] 0.75 3 5 = .ok false := by
  refine ⟨?_, is_matchHigh_eq_true_iff,
    fun high => ⟨sortByOffset_pairwise high, sortByOffset_perm high⟩, ?_⟩
  · intro scores θ m d
    unfold is_match
    rw [pyFilterHigh_map_some]
  · have hlist : [(some (1 : ℚ), (0 : ℤ)), (some 1, 4), (some 1, 9)] =
        ([((1 : ℚ), (0 : ℤ)), (1, 4), (1, 9)]).map (fun p => (some p.1, p.2)) := rfl
    rw [hlist]
    unfold is_match
    rw [pyFilterHigh_map_some]
    have hfil : ([((1 : ℚ), (0 : ℤ)), (1, 4), (1, 9)]).filter
        (fun p => decide ((0.75 : ℚ) ≤ p.1)) =
        [((1 : ℚ), (0 : ℤ)), (1, 4), (1, 9)] := by
      rw [List.filter_eq_self]
      intro a ha
      simp only [List.mem_cons, List.not_mem_nil, or_false] at ha
      rcases ha with h | h | h <;> subst h <;>
        simp only [decide_eq_true_eq] <;> norm_num
    rw [hfil]
    rfl

/-- C2: `correlation` fails with the empty-input error exactly on an
empty input, and on nonempty inputs returns the arithmetic mean over the
aligned frame pairs (the longer list truncated to the shorter) of
`(32 − popcount(xᵢ xor yᵢ)) / 32`. -/
theorem c2_similarity (x y : List ℕ) :
    (correlation x y = .error .emptyInput ↔ x = [] ∨ y = []) ∧
    (x ≠ [] → y ≠ [] →
      correlation x y = .ok
        ((List.zipWith
            (fun a b => ((32 - popCount (a ^^^ b) : ℤ) : ℚ) / 32) x y).sum /
          (min x.length y.length : ℚ))) := by
  constructor
  · unfold correlation
    by_cases h : x.length = 0 ∨ y.length = 0
    · rw [if_pos h]
      have hx : x = [] ∨ y = [] := by
        rcases h with h | h
        · exact Or.inl (List.length_eq_zero.mp h)
        · exact Or.inr (List.length_eq_zero.mp h)
      simp [hx]
    · rw [if_neg h]
      constructor
      · intro hc
        cases hc
      · intro hxy
        exfalso
        apply h
        rcases hxy with h1 | h1 <;> simp [h1]
  · intro hx hy
    unfold correlation
    rw [if_neg (by simp [List.length_eq_zero, hx, hy])]
    exact congrArg Except.ok (correlationVal_eq_mean x y)

/-- C2 witness: a concrete instance of the mean formula. -/
theorem c2_witness :
    correlation [0] [0, 1] = .ok
      ((List.zipWith
          (fun a b => ((32 - popCount (a ^^^ b) : ℤ) : ℚ) / 32) [0] [0, 1]).sum /
        (min (List.length [(0 : ℕ)]) (List.length [(0 : ℕ), 1]) : ℚ)) :=
  (c2_similarity [0] [0, 1]).2 (by simp) (by simp)

/-- C3: the comprehension in `is_match` raises `TypeError` whenever the
score list contains an absent score, `processPair` passes the sweep
output to `is_match` unchanged so an absent entry aborts it with
`TypeError`, and a whole scan over 21-frame fingerprints (whose profile
contains absent entries) aborts with the uncaught `TypeError`. -/
theorem c3_absent_score_aborts :
    (∀ (scores : List (Option ℚ × ℤ)) (θ : ℚ) (m : ℕ) (d : ℤ),
      (∃ p ∈ scores, p.1 = none) → is_match scores θ m d = .error .typeError) ∧
    (∀ (s : List ℕ) (ref : String × List ℕ) (off : ℕ) (corr : List (Option ℚ)),
      ¬(ref.2.length = 0 ∨ s.length = 0) →
      ¬(min span (min s.length ref.2.length - 1) < min_overlap) →
      compare s ref.2 (min span (min s.length ref.2.length - 1)) 10 = .ok corr →
      (∃ c ∈ corr, c = none) →
      processPair s ref off = .error .typeError) ∧
    correlate absProvider absRefs 500 = .error .typeError := by
  refine ⟨?_, ?_, correlate_abort⟩
  · intro scores θ m d hex
    unfold is_match
    rw [pyFilterHigh_absent θ scores hex]
  · intro s ref off corr h0 h1 hcomp hex
    obtain ⟨c, hc, hcnone⟩ := hex
    have heq := hcomp
    rw [compare_ok _ _ _ _ (by omega) (by norm_num)] at heq
    injection heq with heq
    have hlen : corr.length ≤
        (sweepOffsets (min span (min s.length ref.2.length - 1)) 10).length := by
      rw [← heq, List.length_map]
    obtain ⟨o, ho⟩ := zip_cover corr _ hlen c hc
    have his : is_match
        (corr.zip (sweepOffsets (min span (min s.length ref.2.length - 1)) 10))
        0.60 1 5 = .error .typeError := by
      unfold is_match
      rw [pyFilterHigh_absent _ _ ⟨(c, o), ho, hcnone⟩]
    simp only [processPair]
    rw [if_neg h0, if_neg h1, hcomp]
    simp only [his]

/-- C3 witness: a single absent score makes `is_match` raise. -/
theorem c3_witness :
    (∃ p ∈ [((none : Option ℚ), (0 : ℤ))], p.1 = none) ∧
    is_match [((none : Option ℚ), (0 : ℤ))] 0.60 1 5 = .error .typeError :=
  ⟨⟨(none, 0), by simp, rfl⟩,
    c3_absent_score_aborts.1 [(none, 0)] 0.60 1 5 ⟨(none, 0), by simp, rfl⟩⟩

/-- C4: the code computes `get_max_corr`'s offset from the module-level
constants `span = 150` and `step = 1`, not from the parameters of the
sweep that produced the scores: on a 5-point profile as produced by a
sweep with span 20 and step 10, whose maximum sits at index 1, it
returns offset −149 although the sweep's offset at index 1 is −10. -/
theorem c4_get_max_corr_module_constants :
    get_max_corr [some 0, some 1, some 0, some 0, some 0] = .ok (1, -149) ∧
    (sweepOffsets 20 10)[1]? = some (-10) ∧ ((-149 : ℤ) ≠ -10) := by
  refine ⟨?_, by decide, by decide⟩
  have h1 : max_indexGo [some (0 : ℚ), some 1, some 0, some 0, some 0]
      0 0 (some 0) = .ok 1 := by
    simp only [max_indexGo, pyGt,
      show decide ((0 : ℚ) < 0) = false from by simp,
      show decide ((0 : ℚ) < 1) = true from by norm_num,
      show decide ((1 : ℚ) < 0) = false from by norm_num]
  have hmi : max_index [some (0 : ℚ), some 1, some 0, some 0, some 0] = .ok 1 := by
    unfold max_index
    exact h1
  unfold get_max_corr
  rw [hmi]
  norm_num [span, step]

/-- C5: for a fitting span and positive step, `compare` evaluates
`shifted_similarity` at exactly the swept offsets in order, the swept
offsets are exactly the members of the arithmetic sequence
`-span, -span+step, …` not exceeding `+span` (inclusive upper bound),
and they are strictly increasing. -/
theorem c5_sweep_exact_offsets (x y : List ℕ) (sp st : ℕ)
    (h1 : sp ≤ min x.length y.length) (h2 : 0 < st) :
    compare x y sp st = .ok ((sweepOffsets sp st).map (shifted_similarity x y)) ∧
    (∀ o : ℤ, o ∈ sweepOffsets sp st ↔
      ∃ k : ℕ, o = -(sp : ℤ) + (k : ℤ) * (st : ℤ) ∧ o ≤ (sp : ℤ)) ∧
    List.Chain' (· < ·) (sweepOffsets sp st) :=
  ⟨compare_ok x y sp st h1 (by omega),
    fun o => sweepOffsets_mem_iff sp st h2 o, sweepOffsets_chain sp st h2⟩

/-- C5 witness: the sweep over 21-frame fingerprints with span 20 and
step 10. -/
theorem c5_witness :
    compare (List.replicate 21 0) (List.replicate 21 0) 20 10 =
      .ok ((sweepOffsets 20 10).map
        (shifted_similarity (List.replicate 21 0) (List.replicate 21 0))) ∧
    (∀ o : ℤ, o ∈ sweepOffsets 20 10 ↔
      ∃ k : ℕ, o = -((20 : ℕ) : ℤ) + (k : ℤ) * ((10 : ℕ) : ℤ) ∧
        o ≤ ((20 : ℕ) : ℤ)) ∧
    List.Chain' (· < ·) (sweepOffsets 20 10) :=
  c5_sweep_exact_offsets (List.replicate 21 0) (List.replicate 21 0) 20 10
    (by norm_num [List.length_replicate]) (by norm_num)

/-- C6: the clamped span is strictly below the shorter fingerprint
length for nonempty fingerprints, a pair whose clamped span falls below
`min_overlap` is skipped with no candidate, and consequently no scan can
ever fail with `SpanTooLargeError`. -/
theorem c6_span_clamp_unreachable :
    (∀ s r : List ℕ, s ≠ [] → r ≠ [] →
      min span (min s.length r.length - 1) < min s.length r.length) ∧
    (∀ (s : List ℕ) (ref : String × List ℕ) (off : ℕ),
      ¬(ref.2.length = 0 ∨ s.length = 0) →
      min span (min s.length ref.2.length - 1) < min_overlap →
      processPair s ref off = .ok none) ∧
    (∀ (provider : ℕ → Except Unit (List ℕ)) (refs : List (String × List ℕ))
      (d a b : ℕ), correlate provider refs d ≠ .error (.spanTooLarge a b)) := by
  refine ⟨?_, ?_, ?_⟩
  · intro s r hs hr
    have h1 : 0 < s.length := List.length_pos.mpr hs
    have h2 : 0 < r.length := List.length_pos.mpr hr
    simp only [span]
    omega
  · intro s ref off h0 h1
    simp only [processPair]
    rw [if_neg h0, if_pos h1]
  · intro provider refs d a b hcontra
    rcases runWindows_error provider refs (windowOffsets d) _ hcontra with h | h <;>
      cases h

/-- C6 witness: concrete instances of the clamp bound, the skip path,
and a scan that does not raise `SpanTooLargeError`. -/
theorem c6_witness :
    min span (min (List.length [(0 : ℕ)]) (List.length [(0 : ℕ)]) - 1) <
      min (List.length [(0 : ℕ)]) (List.length [(0 : ℕ)]) ∧
    processPair [0] ("r", [0]) 0 = .ok none ∧
    correlate absProvider absRefs 500 ≠ .error (.spanTooLarge 150 21) :=
  ⟨c6_span_clamp_unreachable.1 [0] [0] (by simp) (by simp),
    c6_span_clamp_unreachable.2.1 [0] ("r", [0]) 0 (by simp)
      (by norm_num [span, min_overlap]),
    c6_span_clamp_unreachable.2.2 absProvider absRefs 500 150 21⟩

/-- C7: `compare` fails with `SpanTooLargeError` — carrying the
requested span and the limiting length — exactly when the span exceeds
the shorter input's length. -/
theorem c7_span_error_iff (x y : List ℕ) (sp st : ℕ) :
    compare x y sp st =
      .error (.spanTooLarge sp (min x.length y.length)) ↔
      min x.length y.length < sp := by
  unfold compare
  by_cases h : min x.length y.length < sp
  · simp [h]
  · rw [if_neg h]
    by_cases hst : st = 0
    · rw [if_pos hst]
      simp [h]
    · rw [if_neg hst, runOffsets_eq]
      simp [h]

/-- C8: for a fitting span and positive step the sweep's zipped profile
has exactly `2·span/step + 1` entries with strictly increasing
offsets. -/
theorem c8_sweep_count (x y : List ℕ) (sp st : ℕ)
    (h1 : sp ≤ min x.length y.length) (h2 : 0 < st) :
    ∃ l, compare x y sp st = .ok l ∧
      (l.zip (sweepOffsets sp st)).length = 2 * sp / st + 1 ∧
      List.Chain' (fun a b => a.2 < b.2) (l.zip (sweepOffsets sp st)) := by
  refine ⟨(sweepOffsets sp st).map (shifted_similarity x y),
    compare_ok x y sp st h1 (by omega), ?_, ?_⟩
  · rw [List.length_zip, List.length_map, min_self, sweepOffsets_length]
  · have hmap : List.map Prod.snd
        (((sweepOffsets sp st).map (shifted_similarity x y)).zip
          (sweepOffsets sp st)) = sweepOffsets sp st :=
      List.map_snd_zip _ _ (by rw [List.length_map])
    exact (List.chain'_map Prod.snd).mp
      (by rw [hmap]; exact sweepOffsets_chain sp st h2)

/-- C8 witness: the 21-frame sweep with span 20 and step 10 has
2·20/10 + 1 = 5 entries. -/
theorem c8_witness :
    ∃ l, compare (List.replicate 21 0) (List.replicate 21 0) 20 10 = .ok l ∧
      (l.zip (sweepOffsets 20 10)).length = 2 * 20 / 10 + 1 ∧
      List.Chain' (fun a b => a.2 < b.2) (l.zip (sweepOffsets 20 10)) :=
  c8_sweep_count (List.replicate 21 0) (List.replicate 21 0) 20 10
    (by norm_num [List.length_replicate]) (by norm_num)

/-- C9: a window whose fingerprint request fails is skipped and the scan
returns exactly the candidates of the other windows, the failing window
contributing nothing and the scan not aborting. -/
theorem c9_failed_window_skipped (provider : ℕ → Except Unit (List ℕ))
    (refs : List (String × List ℕ)) (d off0 : ℕ)
    (f : ℕ → List ℕ → List MatchCandidate)
    (h0 : provider off0 = .error ())
    (hf : ∀ off ∈ windowOffsets d, ∀ s, provider off = .ok s →
      runRefs s off refs = .ok (f off s)) :
    correlate provider refs d =
      .ok (((windowOffsets d).filter (fun o => decide (o ≠ off0))).flatMap
        (fun off => match provider off with
          | .error _ => []
          | .ok s => f off s)) := by
  unfold correlate
  rw [runWindows_flatMap provider refs f (windowOffsets d) hf]
  congr 1
  exact flatMap_filter_ne _ off0 (by rw [h0]) (windowOffsets d)

/-- C9 witness: in the demonstration scan the window at offset 0 fails
and is absent, while window 10's match is still returned. -/
theorem c9_witness :
    demoProvider 0 = .error () ∧
    correlate demoProvider demoRefs 510 =
      .ok (((windowOffsets 510).filter (fun o => decide (o ≠ 0))).flatMap
        (fun off => match demoProvider off with
          | .error _ => []
          | .ok _ => [⟨"song", (100 : ℚ), off⟩])) :=
  ⟨rfl, c9_failed_window_skipped demoProvider demoRefs 510 0
    (fun off _ => [⟨"song", (100 : ℚ), off⟩]) rfl
    (by
      intro off hoff s hs
      rw [windowOffsets_510] at hoff
      simp only [List.mem_cons, List.not_mem_nil, or_false] at hoff
      rcases hoff with h | h
      · subst h
        simp [demoProvider] at hs
      · subst h
        have hs2 : List.replicate 170 0 = s := by
          have hs' : demoProvider 10 = .ok s := hs
          simp only [demoProvider, if_pos rfl] at hs'
          injection hs'
        subst hs2
        simp only [runRefs, demoRefs, processPair_replicate170,
          Option.toList_some, List.append_nil])⟩

/-- C10: every candidate a successful scan emits comes from a window and
reference whose sweep profile was absent-free; its confidence is the
profile's maximum score times 100 and at least 0.60 × 100 = 60, and its
timestamp is the window's start offset. -/
theorem c10_candidate_invariants (provider : ℕ → Except Unit (List ℕ))
    (refs : List (String × List ℕ)) (d : ℕ) (res : List MatchCandidate)
    (h : correlate provider refs d = .ok res) :
    ∀ cand ∈ res,
      ∃ (off : ℕ) (s : List ℕ) (ref : String × List ℕ) (scores : List ℚ) (q : ℚ),
      off ∈ windowOffsets d ∧ provider off = .ok s ∧ ref ∈ refs ∧
      compare s ref.2 (min span (min s.length ref.2.length - 1)) 10 =
        .ok (scores.map some) ∧
      scores.maximum = some q ∧ cand.confidence = q * 100 ∧
      (0.60 * 100 : ℚ) ≤ cand.confidence ∧ cand.timestamp = off := by
  intro cand hc
  obtain ⟨off, hoff, s, hprov, cs, hcs, hcand⟩ :=
    runWindows_mem provider refs (windowOffsets d) res h cand hc
  obtain ⟨ref, href, hpp⟩ := runRefs_mem s off refs cs hcs cand hcand
  obtain ⟨scores, q, hcomp, hmax, hconf, hge, hts, _⟩ :=
    processPair_ok_some s ref off cand hpp
  exact ⟨off, s, ref, scores, q, hoff, hprov, href, hcomp, hmax, hconf, hge, hts⟩

/-- C10 witness: the candidate of the demonstration scan satisfies the
invariants. -/
theorem c10_witness :
    (⟨"song", (100 : ℚ), 10⟩ : MatchCandidate) ∈
      [(⟨"song", (100 : ℚ), 10⟩ : MatchCandidate)] ∧
    ∃ (off : ℕ) (s : List ℕ) (ref : String × List ℕ) (scores : List ℚ) (q : ℚ),
      off ∈ windowOffsets 510 ∧ demoProvider off = .ok s ∧ ref ∈ demoRefs ∧
      compare s ref.2 (min span (min s.length ref.2.length - 1)) 10 =
        .ok (scores.map some) ∧
      scores.maximum = some q ∧
      (⟨"song", (100 : ℚ), 10⟩ : MatchCandidate).confidence = q * 100 ∧
      (0.60 * 100 : ℚ) ≤ (⟨"song", (100 : ℚ), 10⟩ : MatchCandidate).confidence ∧
      (⟨"song", (100 : ℚ), 10⟩ : MatchCandidate).timestamp = off :=
  ⟨by simp,
    c10_candidate_invariants demoProvider demoRefs 510 _ demo_correlate _ (by simp)⟩

end Fpcalc
